import Mathlib

/-!
Shallow embedding of `whistic_sdk/vendorintakeform.py` (class `VendorIntakeForm`).

Modelling conventions:
* Python JSON-ish values are modelled by `JVal`; Python truthiness by `truthy`.
* Python `str.strip()` is modelled by `pyStrip` (drop leading and trailing
  whitespace).
* Python dicts that the code builds and iterates are modelled as ordered
  association lists (`List (String × _)`) with first-match lookup (`odGet`),
  update-or-append write (`odSet`), and in-place update (`odMapAt`), mirroring
  Python's insertion-ordered dicts.
* A question is an open dict (`List (String × JVal)`), so that fields unknown
  to the SDK's schema are representable; sections / controls / the form are
  records with exactly the fields the code reads.
* The collaborators (`whistic.vendors.domain`, the HTTP fetch behind `get()`,
  `whistic.vendors.new`) are a `World` of oracles, and every operation also
  returns a trace of `Event`s (collaborator calls, log lines), so that claims
  about "queried", "fetched" and "logged" are statable.
* The lazily-populated `self.question_map` / `self.required_questions` pair is
  a `Option (QMap × ReqMap)` cache value threaded explicitly (the two fields
  are always assigned together in the source).
-/

inductive JVal where
  | null
  | bool (b : Bool)
  | str (s : String)
  | num (n : Int)
  | arr (elems : List JVal)
  | obj (fields : List (String × JVal))
  deriving Repr

/-- Python truthiness (`if x:`) on `JVal`. -/
def truthy : JVal → Bool
  | .null => false
  | .bool b => b
  | .str s => !(s == "")
  | .num n => !(n == 0)
  | .arr xs => !xs.isEmpty
  | .obj kvs => !kvs.isEmpty

/-- Helper for `pyStrip`: remove the trailing characters satisfying `p`. -/
def dropTrail (p : Char → Bool) : List Char → List Char
  | [] => []
  | c :: t =>
    match dropTrail p t with
    | [] => if p c then [] else [c]
    | r => c :: r

/-- Character list underlying Python `str.strip()`. -/
def pyStripL (l : List Char) : List Char :=
  dropTrail Char.isWhitespace (l.dropWhile Char.isWhitespace)

/-- Python `s.strip()` with no arguments: drop leading and trailing whitespace. -/
def pyStrip (s : String) : String :=
  ⟨pyStripL s.data⟩

/-- First-match lookup in an ordered association list (Python `d.get(k)` /
`k in d`; Python dict keys are unique, so first-match is exact). -/
def odGet {α : Type} : List (String × α) → String → Option α
  | [], _ => none
  | (k, v) :: t, key => if k = key then some v else odGet t key

/-- Python `d[k] = v`: update the value at `k` in place if the key exists,
append a new entry otherwise. -/
def odSet {α : Type} : List (String × α) → String → α → List (String × α)
  | [], key, v => [(key, v)]
  | (k, w) :: t, key, v =>
    if k = key then (k, v) :: t else (k, w) :: odSet t key v

/-- Update the value at `k` in place when the key exists; no-op otherwise
(the source only does this after ensuring the key is present). -/
def odMapAt {α : Type} : List (String × α) → String → (α → α) → List (String × α)
  | [], _, _ => []
  | (k, v) :: t, key, f =>
    if k = key then (k, f v) :: t else (k, v) :: odMapAt t key f

/-- Python `d.get(k, default)` on a `JVal` dict. -/
def jgetD (q : List (String × JVal)) (k : String) (d : JVal) : JVal :=
  (odGet q k).getD d

mutual

/-- Structural (Python `==`) equality test on `JVal`. -/
def jeq : JVal → JVal → Bool
  | .null, .null => true
  | .bool a, .bool b => a == b
  | .str a, .str b => a == b
  | .num a, .num b => a == b
  | .arr xs, .arr ys => jeqList xs ys
  | .obj xs, .obj ys => jeqFields xs ys
  | _, _ => false

def jeqList : List JVal → List JVal → Bool
  | [], [] => true
  | x :: xs, y :: ys => jeq x y && jeqList xs ys
  | _, _ => false

def jeqFields : List (String × JVal) → List (String × JVal) → Bool
  | [], [] => true
  | (k, v) :: xs, (l, w) :: ys => k == l && jeq v w && jeqFields xs ys
  | _, _ => false

end

/-- Python `x in l` over a list of `JVal`s. -/
def jmem (x : JVal) (l : List JVal) : Bool :=
  l.any (fun y => jeq x y)

/-- A question of the fetched form: an open JSON dict, so that metadata fields
unknown to the SDK remain representable. -/
abbrev Question := List (String × JVal)

/-- A control of the fetched form, with the fields the source reads.  Fields
absent from the remote dict are modelled as `JVal.null` (the source only reads
them through `.get(k)`, whose miss value `None` behaves as `null`). -/
structure Control where
  identifier : JVal
  heading : JVal
  identification : JVal
  questions : List Question

/-- A section of the fetched form.  `heading = none` models a section dict
without a `'heading'` key (non-string headings are not modelled: the source
would then key its maps by a non-string, which no claim exercises). -/
structure SectionT where
  identifier : JVal
  heading : Option String
  controls : List Control

/-- Python `section.get('heading', 'Unknown Section')`. -/
def SectionT.headingD (s : SectionT) : String :=
  s.heading.getD "Unknown Section"

/-- Python `section.get('heading')` (no default) as a `JVal`. -/
def SectionT.headingJ (s : SectionT) : JVal :=
  match s.heading with
  | some h => .str h
  | none => .null

/-- The fetched vendor intake form.  `identifier` is read by direct indexing
`intake_form['identifier']` in the source, so it is a mandatory field here. -/
structure IntakeForm where
  identifier : JVal
  sections : List SectionT

/-- Value of `question_map[section][text]`: the dict
`{'question': ..., 'control': ..., 'section': ...}` built by
`_build_question_map`. -/
structure QInfo where
  question : Question
  control : Control
  sect : SectionT

/-- State field `self.question_map`: section heading → question text → `QInfo`. -/
abbrev QMap := List (String × List (String × QInfo))

/-- State field `self.required_questions`: section heading → required question texts. -/
abbrev ReqMap := List (String × List String)

/-- Caller-supplied input: section → question text → answer string. -/
abbrev InputData := List (String × List (String × String))

/-- One element of the submission's `questionResponses` list. -/
abbrev Response := List (String × JVal)

/-- String content of a `JVal` expected to be a string.  In
`_build_question_map` the source runs `question.get('text', '').strip()`,
which raises on a non-string `text`; that (unexercised) case is collapsed to
`""` here. -/
def strD : JVal → String
  | .str s => s
  | _ => ""

/-- Expression `question.get('text', '').strip()` of `_build_question_map`. -/
def getTextStripped (q : Question) : String :=
  pyStrip (strD (jgetD q "text" (.str "")))

/-- Per-question step of `describe()` (lines 87-91 of the source): look up the
raw `text` value; when it is truthy and not already listed under the section,
append it verbatim. -/
def descQuestion (st : List (String × List JVal)) (h : String) (q : Question) :
    List (String × List JVal) :=
  match odGet q "text" with
  | none => st
  | some tv =>
    if truthy tv && !(jmem tv ((odGet st h).getD [])) then
      odMapAt st h (fun l => l ++ [tv])
    else st

/-- Per-section step of `describe()`: ensure the section key exists, then walk
controls and questions. -/
def descSection (st : List (String × List JVal)) (sec : SectionT) :
    List (String × List JVal) :=
  let h := sec.headingD
  let st1 := if (odGet st h).isSome then st else st ++ [(h, [])]
  sec.controls.foldl
    (fun st2 c => c.questions.foldl (fun st3 q => descQuestion st3 h q) st2) st1

/-- Structure-extraction part of `VendorIntakeForm.describe` (lines 72-95),
applied to an already-fetched form: section heading → list of raw question
`text` values, deduplicated, in document order. -/
def describeStructure (form : IntakeForm) : List (String × List JVal) :=
  form.sections.foldl descSection []

/-- Per-question step of `_build_question_map`: strip the text, skip it when
empty, otherwise store the question under `(section heading, stripped text)`
(last-seen wins via `odSet`). -/
def addQuestion (sec : SectionT) (c : Control) (m : QMap) (h : String)
    (q : Question) : QMap :=
  let t := getTextStripped q
  if t = "" then m else odMapAt m h (fun inner => odSet inner t ⟨q, c, sec⟩)

/-- Per-section step of `_build_question_map`: the section key is created
unconditionally, then controls and questions are walked. -/
def addSection (m : QMap) (sec : SectionT) : QMap :=
  let h := sec.headingD
  let m1 := if (odGet m h).isSome then m else m ++ [(h, [])]
  sec.controls.foldl
    (fun m2 c => c.questions.foldl (fun m3 q => addQuestion sec c m3 h q) m2) m1

/-- Method `VendorIntakeForm._build_question_map` (lines 97-116). -/
def buildQuestionMap (form : IntakeForm) : QMap :=
  form.sections.foldl addSection []

/-- Condition `info['question'].get('required', False)` of
`_get_required_questions`: Python truthiness of the `required` field, not an
`is True` test. -/
def requiredFlag (info : QInfo) : Bool :=
  truthy (jgetD info.question "required" (.bool false))

/-- Method `VendorIntakeForm._get_required_questions` (lines 118-126). -/
def getRequiredQuestions (qm : QMap) : ReqMap :=
  qm.map (fun p =>
    (p.1, p.2.foldl (fun acc q => if requiredFlag q.2 then acc ++ [q.1] else acc) []))

/-- Phase-1 list `invalid_sections` of `validate_input_data` (lines 140-143). -/
def invalidSectionsOf (qm : QMap) (input : InputData) : List String :=
  (input.map (fun p => p.1)).filter (fun s => !(odGet qm s).isSome)

/-- Contribution of one input section to the phase-2 list `invalid_fields`
(lines 154-158): nothing when the section is unknown (the code re-checks
`section_name in self.question_map`), otherwise every unknown question text,
rendered `section.field`. -/
def fieldContrib (qm : QMap) (p : String × List (String × String)) : List String :=
  match odGet qm p.1 with
  | none => []
  | some inner =>
    ((p.2.map (fun f => f.1)).filter (fun f => !(odGet inner f).isSome)).map
      (fun f => p.1 ++ "." ++ f)

/-- Phase-2 list `invalid_fields` of `validate_input_data` (lines 153-158). -/
def invalidFieldsOf (qm : QMap) (input : InputData) : List String :=
  input.foldl (fun acc p => acc ++ fieldContrib qm p) []

/-- Blank-answer test used at lines 175 and 239:
`not v or str(v).strip() == ""` for a string answer. -/
def blankAnswer (a : String) : Bool :=
  a == "" || pyStrip a == ""

/-- Condition of line 175: the required field is absent from the input
section, or its answer is falsy / whitespace-only. -/
def missingCond (sd : List (String × String)) (t : String) : Bool :=
  match odGet sd t with
  | none => true
  | some a => blankAnswer a

/-- Contribution of one `required_questions` entry to the phase-3 list
`missing_required` (lines 172-176), rendered `section.field`. -/
def missingContrib (input : InputData) (p : String × List String) : List String :=
  (p.2.filter (missingCond ((odGet input p.1).getD []))).map (fun t => p.1 ++ "." ++ t)

/-- Phase-3 list `missing_required` of `validate_input_data` (lines 171-176). -/
def missingRequiredOf (req : ReqMap) (input : InputData) : List String :=
  req.foldl (fun acc p => acc ++ missingContrib input p) []

/-- Failure payload of `VendorFormValidationError`, tagged by which raise site
produced it, carrying the violation list of that phase. -/
inductive VErr where
  | noForm
  | invalidSections (ls : List String)
  | invalidFields (ls : List String)
  | missingRequired (ls : List String)
  deriving DecidableEq, Repr

/-- Validation core of `VendorIntakeForm.validate_input_data` (lines 139-188):
the three phase checks, in source order, each raising when its accumulated
violation list is non-empty.  The lazy cache-population prelude (lines
132-137) is modelled at the call sites that run it
(`generate_vendor_submission`). -/
def validate_input_data (qm : QMap) (req : ReqMap) (input : InputData) :
    Except VErr Unit :=
  let l1 := invalidSectionsOf qm input
  if l1 = [] then
    let l2 := invalidFieldsOf qm input
    if l2 = [] then
      let l3 := missingRequiredOf req input
      if l3 = [] then .ok () else .error (.missingRequired l3)
    else .error (.invalidFields l2)
  else .error (.invalidSections l1)

/-- Method `VendorIntakeForm._create_question_response` (lines 231-278):
`none` for a blank answer, otherwise the response dict with its fixed,
enumerated question fields. -/
def createQuestionResponse (info : QInfo) (answer : String) :
    Option Response :=
  let q := info.question
  let c := info.control
  let s := info.sect
  if blankAnswer answer then none
  else some [
    ("question", .obj [
      ("language", jgetD q "language" (.str "ENGLISH")),
      ("type", jgetD q "type" (.str "TEXT")),
      ("text", jgetD q "text" .null),
      ("identifier", jgetD q "identifier" .null),
      ("identification", jgetD q "identification" .null),
      ("options", jgetD q "options" (.arr [])),
      ("required", jgetD q "required" (.bool false)),
      ("showNotApplicable", jgetD q "showNotApplicable" (.bool false)),
      ("answeredTag", jgetD q "answeredTag" .null),
      ("notApplicableTag", jgetD q "notApplicableTag" .null),
      ("questionLevelCommentTag", jgetD q "questionLevelCommentTag" .null),
      ("fileUploadTag", jgetD q "fileUploadTag" .null),
      ("answeredCondition", jgetD q "answeredCondition" .null),
      ("warningCondition", jgetD q "warningCondition" .null),
      ("commentRequiredCondition", jgetD q "commentRequiredCondition" .null),
      ("fileUploadRequiredCondition", jgetD q "fileUploadRequiredCondition" .null),
      ("control", .obj [
        ("identifier", c.identifier),
        ("heading", c.heading),
        ("identification", c.identification),
        ("section", .obj [
          ("identifier", s.identifier),
          ("heading", s.headingJ)])]),
      ("metadata", jgetD q "metadata" .null),
      ("questionIdentifier", jgetD q "questionIdentifier" .null)
    ]),
    ("customFormControlIdentifier", jgetD q "identifier" .null),
    ("choices",
      if truthy (jgetD q "answeredTag" .null) then .arr [jgetD q "answeredTag" .null]
      else .arr []),
    ("answerText", .str answer)
  ]

/-- Log level of a recorded log line. -/
inductive LogLevel where
  | debug
  | info
  | warning
  | error
  deriving DecidableEq, Repr

/-- Observable event of a run: a log line or a call to one of the excluded
collaborators (domain lookup, form fetch, vendor creation). -/
inductive Event where
  | log (lvl : LogLevel) (msg : String)
  | domainCall (d : String)
  | fetchCall
  | createCall
  deriving DecidableEq, Repr

/-- Submission payload built by `generate_vendor_submission` (lines 208-211). -/
structure Submission where
  questionnaireVersionIdentifier : JVal
  questionResponses : List Response

/-- Behaviour of the excluded collaborators: the result of
`whistic.vendors.domain`, of the HTTP read behind `get()` (collapsed to the
parsed form on a 200, `none` otherwise), and of `whistic.vendors.new`. -/
structure World where
  domainResult : String → JVal
  fetchResult : Option IntakeForm
  createResult : Submission → JVal

/-- Method `VendorIntakeForm.get` (lines 31-51): one fetch call; an info log
line on success.  On failure the source logs an error only when a non-200
response object exists; that log is subsumed by the caller's own error log
and is not recorded here. -/
def getForm (w : World) : Option IntakeForm × List Event :=
  match w.fetchResult with
  | some f => (some f, [.fetchCall, .log .info "200 - vendor intake form"])
  | none => (none, [.fetchCall])

/-- Per-question step of the submission-building loop (lines 216-225): skip an
unknown question with a warning; append the `QuestionResponse` of a known,
non-blank answer. -/
def respStep (inner : List (String × QInfo)) (acc : List Response × List Event)
    (qa : String × String) : List Response × List Event :=
  match odGet inner qa.1 with
  | none => (acc.1, acc.2 ++ [.log .warning ("Question not found: " ++ qa.1)])
  | some info =>
    match createQuestionResponse info qa.2 with
    | none => acc
    | some r => (acc.1 ++ [r], acc.2)

/-- Per-section step of the submission-building loop (lines 214-227). -/
def respSection (qm : QMap) (acc : List Response × List Event)
    (p : String × List (String × String)) : List Response × List Event :=
  match odGet qm p.1 with
  | none => (acc.1, acc.2 ++ [.log .warning ("Section not found: " ++ p.1)])
  | some inner => p.2.foldl (respStep inner) acc

/-- Submission-building double loop of `generate_vendor_submission` (lines
214-227): walk `input` in order, collecting responses and warnings. -/
def buildResponses (qm : QMap) (input : InputData) :
    List Response × List Event :=
  input.foldl (respSection qm) ([], [])

/-- Cache-population prelude of `generate_vendor_submission` (lines 199-201):
keep a populated `question_map` / `required_questions` pair, build both from
the freshly fetched form otherwise. -/
def cacheOrBuild (cache : Option (QMap × ReqMap)) (form : IntakeForm) :
    QMap × ReqMap :=
  match cache with
  | some x => x
  | none =>
    let qm := buildQuestionMap form
    (qm, getRequiredQuestions qm)

/-- Method `VendorIntakeForm.generate_vendor_submission` (lines 190-229).
Fetches the form unconditionally (raising `noForm` on failure), populates the
`question_map` / `required_questions` cache when it is empty, validates when
asked, then builds the payload.  Returns the payload together with the
post-call cache, plus the event trace. -/
def generate_vendor_submission (w : World) (cache : Option (QMap × ReqMap))
    (input : InputData) (validate : Bool) :
    Except VErr (Submission × Option (QMap × ReqMap)) × List Event :=
  match getForm w with
  | (none, ev0) => (.error .noForm, ev0)
  | (some form, ev0) =>
    let qmreq := cacheOrBuild cache form
    match (if validate then validate_input_data qmreq.1 qmreq.2 input else .ok ()) with
    | .error e => (.error e, ev0)
    | .ok _ =>
      let br := buildResponses qmreq.1 input
      (.ok (⟨form.identifier, br.1⟩, some qmreq), ev0 ++ br.2)

/-- Log message of the `except VendorFormValidationError` handler. -/
def verrMsg : VErr → String
  | .noForm => "Could not retrieve intake form"
  | .invalidSections _ => "Invalid sections found"
  | .invalidFields _ => "Invalid fields found"
  | .missingRequired _ => "Missing required fields"

/-- Domain extraction of `new` (lines 334-338):
`form.get('Vendor Information', {}).get('Vendor URL')`, with the Python
falsiness test collapsing a missing key and an empty string to `""`. -/
def domainOf (form : InputData) : String :=
  (odGet ((odGet form "Vendor Information").getD []) "Vendor URL").getD ""

/-- Method `VendorIntakeForm.new` (lines 316-374), the intake orchestrator:
domain extraction, unconditional domain lookup, force/existence gate, form
fetch, payload generation (whose `VendorFormValidationError` and generic
exceptions are caught and logged), vendor creation.  Returns the boolean
result and the event trace. -/
def new (w : World) (cache : Option (QMap × ReqMap)) (form : InputData)
    (force validate : Bool) : Bool × List Event :=
  let domain := domainOf form
  if domain = "" then
    (false, [.log .error "No domain found in form data"])
  else
    let ev1 : List Event := [.domainCall domain]
    if !force && truthy (w.domainResult domain) then
      (false, ev1 ++ [.log .warning ("Domain " ++ domain ++ " already exists. Intake will be skipped.")])
    else
      match getForm w with
      | (none, ev2) =>
        (false, ev1 ++ ev2 ++ [.log .error "Could not retrieve vendor intake form"])
      | (some _, ev2) =>
        match generate_vendor_submission w cache form validate with
        | (.error e, ev3) =>
          (false, ev1 ++ ev2 ++ ev3 ++ [.log .error ("Form validation failed: " ++ verrMsg e)])
        | (.ok (payload, _), ev3) =>
          let ev4 : List Event :=
            [.log .info "Generated submission payload", .createCall]
          if truthy (w.createResult payload) then
            (true, ev1 ++ ev2 ++ ev3 ++ ev4 ++
              [.log .info ("Successfully submitted vendor intake form for domain: " ++ domain)])
          else
            (false, ev1 ++ ev2 ++ ev3 ++ ev4 ++
              [.log .error ("Failed to submit vendor intake form for domain: " ++ domain)])

/-! Shared lemmas about the helper functions. -/

/-- Boolean test: the list does not start with a whitespace character. -/
def noLeadWS : List Char → Bool
  | [] => true
  | c :: _ => !c.isWhitespace

/-- Boolean test: the string carries no leading and no trailing whitespace. -/
def strippedB (s : String) : Bool :=
  noLeadWS s.data && noLeadWS s.data.reverse

theorem noLeadWS_append (xs ys : List Char) (h : xs ≠ []) :
    noLeadWS (xs ++ ys) = noLeadWS xs := by
  cases xs with
  | nil => exact absurd rfl h
  | cons c t => simp [noLeadWS]

theorem noLeadWS_dropWhile (l : List Char) :
    noLeadWS (l.dropWhile Char.isWhitespace) = true := by
  induction l with
  | nil => simp [noLeadWS]
  | cons c t ih =>
    by_cases h : c.isWhitespace
    · simpa [List.dropWhile, h] using ih
    · simp [List.dropWhile, h, noLeadWS]

theorem noLeadWS_dropTrail (l : List Char)
    (h : noLeadWS l = true) : noLeadWS (dropTrail Char.isWhitespace l) = true := by
  cases l with
  | nil => simp [dropTrail, noLeadWS]
  | cons c t =>
    simp only [noLeadWS, Bool.not_eq_true'] at h
    cases hr : dropTrail Char.isWhitespace t with
    | nil => simp [dropTrail, hr, h, noLeadWS]
    | cons x xs => simp [dropTrail, hr, h, noLeadWS]

theorem noLeadWS_reverse_dropTrail (l : List Char) :
    noLeadWS (dropTrail Char.isWhitespace l).reverse = true := by
  induction l with
  | nil => simp [dropTrail, noLeadWS]
  | cons c t ih =>
    cases hr : dropTrail Char.isWhitespace t with
    | nil =>
      by_cases h : c.isWhitespace
      · simp [dropTrail, hr, h, noLeadWS]
      · simp [dropTrail, hr, h, noLeadWS]
    | cons x xs =>
      rw [hr] at ih
      have hne : (x :: xs).reverse ≠ [] := by simp
      simp only [dropTrail, hr]
      rw [List.reverse_cons, noLeadWS_append _ _ hne]
      exact ih

/-- Output of `pyStrip` never carries leading or trailing whitespace. -/
theorem strippedB_pyStrip (s : String) : strippedB (pyStrip s) = true := by
  unfold strippedB pyStrip pyStripL
  simp only [Bool.and_eq_true]
  exact ⟨noLeadWS_dropTrail _ (noLeadWS_dropWhile _), noLeadWS_reverse_dropTrail _⟩

theorem odGet_isSome_mem_keys {α : Type} (m : List (String × α)) (k : String)
    (h : (odGet m k).isSome = true) : k ∈ m.map Prod.fst := by
  induction m with
  | nil => simp [odGet] at h
  | cons p t ih =>
    by_cases hk : p.1 = k
    · simp [hk]
    · obtain ⟨k', v⟩ := p
      simp only [odGet, if_neg hk] at h
      simp [ih h]

theorem odGet_map {α β : Type} (f : α → β) (m : List (String × α)) (k : String) :
    odGet (m.map (fun p => (p.1, f p.2))) k = (odGet m k).map f := by
  induction m with
  | nil => simp [odGet]
  | cons p t ih =>
    by_cases hk : p.1 = k
    · simp [odGet, hk]
    · simp [odGet, hk, ih]

theorem odGet_append {α : Type} (m m2 : List (String × α)) (k : String) :
    odGet (m ++ m2) k =
      match odGet m k with
      | some v => some v
      | none => odGet m2 k := by
  induction m with
  | nil => simp [odGet]
  | cons p t ih =>
    by_cases hk : p.1 = k
    · simp [odGet, hk]
    · simp [odGet, hk, ih]

theorem odGet_odMapAt_self {α : Type} (m : List (String × α)) (k : String)
    (f : α → α) : odGet (odMapAt m k f) k = (odGet m k).map f := by
  induction m with
  | nil => simp [odGet, odMapAt]
  | cons p t ih =>
    by_cases hk : p.1 = k
    · simp [odGet, odMapAt, hk]
    · simp [odGet, odMapAt, hk, ih]

theorem odGet_odMapAt_ne {α : Type} (m : List (String × α)) (k k' : String)
    (f : α → α) (h : k' ≠ k) : odGet (odMapAt m k f) k' = odGet m k' := by
  have hkk : ¬(k = k') := fun hh => h hh.symm
  induction m with
  | nil => simp [odMapAt]
  | cons p t ih =>
    by_cases hk : p.1 = k
    · simp [odGet, odMapAt, hk, hkk]
    · by_cases hk' : p.1 = k'
      · simp [odGet, odMapAt, hk, hk', h]
      · simp [odGet, odMapAt, hk, hk', ih]

theorem odGet_odSet_self {α : Type} (m : List (String × α)) (k : String) (v : α) :
    odGet (odSet m k v) k = some v := by
  induction m with
  | nil => simp [odGet, odSet]
  | cons p t ih =>
    by_cases hk : p.1 = k
    · simp [odGet, odSet, hk]
    · simp [odGet, odSet, hk, ih]

theorem odGet_odSet_ne {α : Type} (m : List (String × α)) (k k' : String) (v : α)
    (h : k' ≠ k) : odGet (odSet m k v) k' = odGet m k' := by
  have hkk : ¬(k = k') := fun hh => h hh.symm
  induction m with
  | nil => simp [odGet, odSet, hkk]
  | cons p t ih =>
    by_cases hk : p.1 = k
    · simp [odGet, odSet, hk, hkk]
    · by_cases hk' : p.1 = k'
      · simp [odGet, odSet, hk, hk', h]
      · simp [odGet, odSet, hk, hk', ih]

theorem mem_keys_odSet {α : Type} (m : List (String × α)) (k t : String) (v : α)
    (h : t ∈ (odSet m k v).map Prod.fst) : t ∈ m.map Prod.fst ∨ t = k := by
  induction m with
  | nil => simp [odSet] at h; simp [h]
  | cons p t' ih =>
    by_cases hk : p.1 = k
    · simp only [odSet, if_pos hk] at h
      simp only [List.map_cons, List.mem_cons] at h ⊢
      rcases h with h | h
      · exact Or.inl (Or.inl h)
      · exact Or.inl (Or.inr h)
    · simp only [odSet, if_neg hk] at h
      simp only [List.map_cons, List.mem_cons] at h ⊢
      rcases h with h | h
      · exact Or.inl (Or.inl h)
      · rcases ih h with h' | h'
        · exact Or.inl (Or.inr h')
        · exact Or.inr h'

theorem jeq_str (t : String) (y : JVal) (h : jeq (.str t) y = true) :
    y = .str t := by
  cases y <;> simp [jeq] at h
  simp [h]

theorem jmem_str (t : String) (l : List JVal) (h : jmem (.str t) l = true) :
    JVal.str t ∈ l := by
  induction l with
  | nil => simp [jmem] at h
  | cons a l ih =>
    simp only [jmem, List.any_cons, Bool.or_eq_true] at h
    rcases h with h | h
    · rw [jeq_str t a h]; exact List.mem_cons_self _ _
    · exact List.mem_cons_of_mem _ (ih (by simpa [jmem] using h))

theorem foldl_append_acc {α : Type} (g : α → List String) (l : List α) :
    ∀ init : List String,
      l.foldl (fun acc p => acc ++ g p) init = init ++ (l.map g).flatten := by
  induction l with
  | nil => intro init; simp
  | cons p t ih =>
    intro init
    simp only [List.foldl_cons, List.map_cons, List.flatten_cons]
    rw [ih, List.append_assoc]

theorem foldl_append_acc_nil {α : Type} (g : α → List String) (l : List α)
    (h : ∀ p ∈ l, g p = []) :
    l.foldl (fun acc p => acc ++ g p) [] = [] := by
  rw [foldl_append_acc]
  simp only [List.nil_append, List.flatten_eq_nil_iff]
  intro xs hxs
  obtain ⟨p, hp, rfl⟩ := List.mem_map.mp hxs
  exact h p hp

theorem foldl_filter_acc {α : Type} (pred : α → Bool) (f : α → String) (l : List α) :
    ∀ init : List String,
      l.foldl (fun acc q => if pred q then acc ++ [f q] else acc) init =
        init ++ (l.filter pred).map f := by
  induction l with
  | nil => intro init; simp
  | cons q t ih =>
    intro init
    by_cases h : pred q
    · simp only [List.foldl_cons, if_pos h, List.filter_cons_of_pos h, List.map_cons]
      rw [ih, List.append_assoc]; rfl
    · simp only [List.foldl_cons, if_neg h, List.filter_cons_of_neg h]
      exact ih init

/-! Key-set lemmas for `_build_question_map`. -/

theorem isSome_addQuestion (sec : SectionT) (c : Control) (m : QMap) (h k : String)
    (q : Question) :
    (odGet (addQuestion sec c m h q) k).isSome = (odGet m k).isSome := by
  unfold addQuestion
  by_cases ht : getTextStripped q = ""
  · simp [ht]
  · simp only [if_neg ht]
    by_cases hk : k = h
    · rw [hk, odGet_odMapAt_self]
      cases odGet m h <;> simp
    · rw [odGet_odMapAt_ne _ _ _ _ hk]

theorem isSome_addQuestion_fold (sec : SectionT) (c : Control) (h k : String)
    (qs : List Question) :
    ∀ m : QMap,
      (odGet (qs.foldl (fun m3 q => addQuestion sec c m3 h q) m) k).isSome =
        (odGet m k).isSome := by
  induction qs with
  | nil => intro m; rfl
  | cons q t ih =>
    intro m
    simp only [List.foldl_cons]
    rw [ih, isSome_addQuestion]

theorem isSome_addControl_fold (sec : SectionT) (h k : String)
    (cs : List Control) :
    ∀ m : QMap,
      (odGet (cs.foldl
        (fun m2 c => c.questions.foldl (fun m3 q => addQuestion sec c m3 h q) m2) m) k).isSome =
        (odGet m k).isSome := by
  induction cs with
  | nil => intro m; rfl
  | cons c t ih =>
    intro m
    simp only [List.foldl_cons]
    rw [ih, isSome_addQuestion_fold]

theorem isSome_addSection (m : QMap) (sec : SectionT) (k : String) :
    (odGet (addSection m sec) k).isSome = true ↔
      (odGet m k).isSome = true ∨ k = sec.headingD := by
  unfold addSection
  rw [isSome_addControl_fold]
  by_cases hm : (odGet m sec.headingD).isSome
  · simp only [if_pos hm]
    constructor
    · exact fun hh => Or.inl hh
    · rintro (hh | rfl)
      · exact hh
      · exact hm
  · simp only [if_neg hm, odGet_append]
    cases hg : odGet m k with
    | some v => simp
    | none =>
      simp only [Option.isSome_none, Bool.false_eq_true, false_or]
      by_cases hk : sec.headingD = k
      · simp [odGet, hk]
      · simp [odGet, hk]
        exact fun hh => hk hh.symm

theorem isSome_buildQuestionMap_fold (k : String) (secs : List SectionT) :
    ∀ m : QMap,
      (odGet (secs.foldl addSection m) k).isSome = true ↔
        (odGet m k).isSome = true ∨ k ∈ secs.map SectionT.headingD := by
  induction secs with
  | nil => intro m; simp
  | cons s t ih =>
    intro m
    simp only [List.foldl_cons, List.map_cons, List.mem_cons]
    rw [ih, isSome_addSection]
    constructor
    · rintro ((hh | hh) | hh)
      · exact Or.inl hh
      · exact Or.inr (Or.inl hh)
      · exact Or.inr (Or.inr hh)
    · rintro (hh | hh | hh)
      · exact Or.inl (Or.inl hh)
      · exact Or.inl (Or.inr hh)
      · exact Or.inr hh

/-- Section keys of the built question map are exactly the (defaulted) section
headings of the document — independent of the sections' question texts. -/
theorem isSome_buildQuestionMap (form : IntakeForm) (k : String) :
    (odGet (buildQuestionMap form) k).isSome = true ↔
      k ∈ form.sections.map SectionT.headingD := by
  unfold buildQuestionMap
  rw [isSome_buildQuestionMap_fold]
  simp [odGet]

/-! Stripped-keys invariant of `_build_question_map`: every question-text key
of every section of the built map is a stripped string. -/

/-- Invariant: all inner (question-text) keys of the map pass `strippedB`. -/
def innerKeysStripped (m : QMap) : Prop :=
  ∀ s inner, odGet m s = some inner → ∀ t ∈ inner.map Prod.fst, strippedB t = true

theorem iks_addQuestion (sec : SectionT) (c : Control) (m : QMap) (h : String)
    (q : Question) (hm : innerKeysStripped m) :
    innerKeysStripped (addQuestion sec c m h q) := by
  unfold addQuestion
  by_cases ht : getTextStripped q = ""
  · simpa [ht] using hm
  · simp only [if_neg ht]
    intro s inner hs t htm
    by_cases hsh : s = h
    · subst hsh
      rw [odGet_odMapAt_self] at hs
      cases hg : odGet m s with
      | none => rw [hg] at hs; exact absurd hs (by simp)
      | some inner0 =>
        rw [hg] at hs
        simp only [Option.map_some', Option.some.injEq] at hs
        subst hs
        rcases mem_keys_odSet _ _ _ _ htm with hmem | rfl
        · exact hm s inner0 hg t hmem
        · exact strippedB_pyStrip _
    · rw [odGet_odMapAt_ne _ _ _ _ hsh] at hs
      exact hm s inner hs t htm

theorem iks_addQuestion_fold (sec : SectionT) (c : Control) (h : String)
    (qs : List Question) :
    ∀ m : QMap, innerKeysStripped m →
      innerKeysStripped (qs.foldl (fun m3 q => addQuestion sec c m3 h q) m) := by
  induction qs with
  | nil => intro m hm; exact hm
  | cons q t ih =>
    intro m hm
    exact ih _ (iks_addQuestion sec c m h q hm)

theorem iks_addControl_fold (sec : SectionT) (h : String) (cs : List Control) :
    ∀ m : QMap, innerKeysStripped m →
      innerKeysStripped (cs.foldl
        (fun m2 c => c.questions.foldl (fun m3 q => addQuestion sec c m3 h q) m2) m) := by
  induction cs with
  | nil => intro m hm; exact hm
  | cons c t ih =>
    intro m hm
    exact ih _ (iks_addQuestion_fold sec c h c.questions m hm)

theorem iks_ensure_key (m : QMap) (h : String) (hm : innerKeysStripped m) :
    innerKeysStripped (m ++ [(h, [])]) := by
  intro s inner hs t htm
  rw [odGet_append] at hs
  cases hg : odGet m s with
  | some inner0 =>
    rw [hg] at hs
    simp only [Option.some_inj] at hs
    subst hs
    exact hm s inner0 hg t htm
  | none =>
    rw [hg] at hs
    simp only [odGet] at hs
    by_cases hsh : h = s
    · rw [if_pos hsh] at hs
      simp only [Option.some_inj] at hs
      subst hs
      simp at htm
    · rw [if_neg hsh] at hs
      exact absurd hs (by simp [odGet])

theorem iks_addSection (m : QMap) (sec : SectionT) (hm : innerKeysStripped m) :
    innerKeysStripped (addSection m sec) := by
  unfold addSection
  by_cases hk : (odGet m sec.headingD).isSome
  · simp only [if_pos hk]
    exact iks_addControl_fold sec sec.headingD sec.controls m hm
  · simp only [if_neg hk]
    exact iks_addControl_fold sec sec.headingD sec.controls _
      (iks_ensure_key m sec.headingD hm)

theorem iks_buildQuestionMap (form : IntakeForm) :
    innerKeysStripped (buildQuestionMap form) := by
  unfold buildQuestionMap
  have base : innerKeysStripped ([] : QMap) := by
    intro s inner hs
    simp [odGet] at hs
  revert base
  generalize ([] : QMap) = m0
  intro base
  induction form.sections generalizing m0 with
  | nil => exact base
  | cons s t ih =>
    exact ih _ (iks_addSection m0 s base)

/-- If a text carries leading or trailing whitespace, it is a key of no
section of the built question map. -/
theorem not_key_of_not_stripped (form : IntakeForm) (s t : String)
    (hts : strippedB t = false) (inner : List (String × QInfo))
    (hs : odGet (buildQuestionMap form) s = some inner) :
    odGet inner t = none := by
  cases hg : odGet inner t with
  | none => rfl
  | some info =>
    have hsome : (odGet inner t).isSome = true := by simp [hg]
    have hmem := odGet_isSome_mem_keys inner t hsome
    have := iks_buildQuestionMap form s inner hs t hmem
    rw [hts] at this
    exact absurd this (by simp)

/-! Membership lemmas for `describe()`: a truthy question text ends up listed
under its section, and listed texts are never removed. -/

/-- Lookup of the accumulated `describe()` structure. -/
def dLookup (st : List (String × List JVal)) (h : String) : List JVal :=
  (odGet st h).getD []

theorem descQuestion_isSome (st : List (String × List JVal)) (h h' : String)
    (q : Question) :
    (odGet (descQuestion st h q) h').isSome = (odGet st h').isSome := by
  unfold descQuestion
  cases odGet q "text" with
  | none => rfl
  | some tv =>
    by_cases hc : truthy tv && !(jmem tv ((odGet st h).getD []))
    · simp only [if_pos hc]
      by_cases hh : h' = h
      · subst hh; rw [odGet_odMapAt_self]; cases odGet st h' <;> simp
      · rw [odGet_odMapAt_ne _ _ _ _ hh]
    · simp [hc]

theorem descQuestion_mono (st : List (String × List JVal)) (h h' : String)
    (q : Question) (tv : JVal) (hm : tv ∈ dLookup st h') :
    tv ∈ dLookup (descQuestion st h q) h' := by
  unfold descQuestion
  cases odGet q "text" with
  | none => exact hm
  | some tv' =>
    by_cases hc : truthy tv' && !(jmem tv' ((odGet st h).getD []))
    · simp only [if_pos hc]
      by_cases hh : h' = h
      · subst hh
        unfold dLookup at hm ⊢
        rw [odGet_odMapAt_self]
        cases hg : odGet st h' with
        | none => rw [hg] at hm; simp at hm
        | some l =>
          rw [hg] at hm
          simp only [Option.getD_some] at hm
          simp only [Option.map_some', Option.getD_some]
          exact List.mem_append_left _ hm
      · unfold dLookup
        rw [odGet_odMapAt_ne _ _ _ _ hh]
        exact hm
    · simp only [if_neg hc]; exact hm

theorem descQFold_isSome (h h' : String) (qs : List Question) :
    ∀ st, (odGet (qs.foldl (fun st3 q => descQuestion st3 h q) st) h').isSome =
      (odGet st h').isSome := by
  induction qs with
  | nil => intro st; rfl
  | cons q t ih =>
    intro st
    simp only [List.foldl_cons]
    rw [ih, descQuestion_isSome]

theorem descQFold_mono (h h' : String) (qs : List Question) (tv : JVal) :
    ∀ st, tv ∈ dLookup st h' →
      tv ∈ dLookup (qs.foldl (fun st3 q => descQuestion st3 h q) st) h' := by
  induction qs with
  | nil => intro st hm; exact hm
  | cons q t ih =>
    intro st hm
    exact ih _ (descQuestion_mono st h h' q tv hm)

theorem descCFold_isSome (h h' : String) (cs : List Control) :
    ∀ st, (odGet (cs.foldl
      (fun st2 c => c.questions.foldl (fun st3 q => descQuestion st3 h q) st2) st) h').isSome =
      (odGet st h').isSome := by
  induction cs with
  | nil => intro st; rfl
  | cons c t ih =>
    intro st
    simp only [List.foldl_cons]
    rw [ih, descQFold_isSome]

theorem descCFold_mono (h h' : String) (cs : List Control) (tv : JVal) :
    ∀ st, tv ∈ dLookup st h' →
      tv ∈ dLookup (cs.foldl
        (fun st2 c => c.questions.foldl (fun st3 q => descQuestion st3 h q) st2) st) h' := by
  induction cs with
  | nil => intro st hm; exact hm
  | cons c t ih =>
    intro st hm
    exact ih _ (descQFold_mono h h' c.questions tv st hm)

theorem descQuestion_adds (st : List (String × List JVal)) (h : String)
    (q : Question) (t : String) (hq : odGet q "text" = some (.str t))
    (ht : t ≠ "") (hk : (odGet st h).isSome = true) :
    JVal.str t ∈ dLookup (descQuestion st h q) h := by
  have hred : descQuestion st h q =
      if truthy (JVal.str t) && !(jmem (JVal.str t) ((odGet st h).getD [])) then
        odMapAt st h (fun l => l ++ [JVal.str t])
      else st := by
    unfold descQuestion
    rw [hq]
  rw [hred]
  have htr : truthy (JVal.str t) = true := by
    simp [truthy]
    exact ht
  by_cases hjm : jmem (JVal.str t) ((odGet st h).getD []) = true
  · have hcond : (truthy (JVal.str t) && !(jmem (JVal.str t) ((odGet st h).getD []))) = false := by
      rw [htr, hjm]; rfl
    rw [hcond]
    simp only [Bool.false_eq_true, if_false]
    exact jmem_str t _ hjm
  · have hjm' : jmem (JVal.str t) ((odGet st h).getD []) = false :=
      Bool.not_eq_true _ ▸ (by simpa using hjm)
    have hcond : (truthy (JVal.str t) && !(jmem (JVal.str t) ((odGet st h).getD []))) = true := by
      rw [htr, hjm']; rfl
    rw [hcond]
    simp only [if_true]
    unfold dLookup
    rw [odGet_odMapAt_self]
    cases hg : odGet st h with
    | none => rw [hg] at hk; simp at hk
    | some l =>
      simp only [Option.map_some', Option.getD_some]
      exact List.mem_append_right _ (List.mem_singleton.mpr rfl)

theorem descQFold_adds (h : String) (qs : List Question) (q : Question)
    (t : String) (hqm : q ∈ qs) (hq : odGet q "text" = some (.str t))
    (ht : t ≠ "") :
    ∀ st, (odGet st h).isSome = true →
      JVal.str t ∈ dLookup (qs.foldl (fun st3 q' => descQuestion st3 h q') st) h := by
  obtain ⟨l1, l2, rfl⟩ := List.append_of_mem hqm
  intro st hk
  rw [List.foldl_append, List.foldl_cons]
  apply descQFold_mono
  apply descQuestion_adds _ _ _ _ hq ht
  rw [descQFold_isSome]
  exact hk

theorem descCFold_adds (h : String) (cs : List Control) (c : Control)
    (q : Question) (t : String) (hcm : c ∈ cs) (hqm : q ∈ c.questions)
    (hq : odGet q "text" = some (.str t)) (ht : t ≠ "") :
    ∀ st, (odGet st h).isSome = true →
      JVal.str t ∈ dLookup (cs.foldl
        (fun st2 c' => c'.questions.foldl (fun st3 q' => descQuestion st3 h q') st2) st) h := by
  obtain ⟨l1, l2, rfl⟩ := List.append_of_mem hcm
  intro st hk
  rw [List.foldl_append, List.foldl_cons]
  apply descCFold_mono
  apply descQFold_adds h c.questions q t hqm hq ht
  rw [descCFold_isSome]
  exact hk

theorem descSection_adds (st : List (String × List JVal)) (sec : SectionT)
    (c : Control) (q : Question) (t : String) (hcm : c ∈ sec.controls)
    (hqm : q ∈ c.questions) (hq : odGet q "text" = some (.str t)) (ht : t ≠ "") :
    JVal.str t ∈ dLookup (descSection st sec) sec.headingD := by
  unfold descSection
  by_cases hk : (odGet st sec.headingD).isSome
  · simp only [if_pos hk]
    exact descCFold_adds sec.headingD sec.controls c q t hcm hqm hq ht st hk
  · simp only [if_neg hk]
    apply descCFold_adds sec.headingD sec.controls c q t hcm hqm hq ht
    rw [odGet_append]
    have : odGet st sec.headingD = none := by
      cases hg : odGet st sec.headingD with
      | none => rfl
      | some l => rw [hg] at hk; simp at hk
    rw [this]
    simp [odGet]

theorem descSection_mono (st : List (String × List JVal)) (sec : SectionT)
    (h' : String) (tv : JVal) (hm : tv ∈ dLookup st h') :
    tv ∈ dLookup (descSection st sec) h' := by
  unfold descSection
  by_cases hk : (odGet st sec.headingD).isSome
  · simp only [if_pos hk]
    exact descCFold_mono _ _ _ _ _ hm
  · simp only [if_neg hk]
    apply descCFold_mono
    unfold dLookup at hm ⊢
    rw [odGet_append]
    cases hg : odGet st h' with
    | none => rw [hg] at hm; simp at hm
    | some l => rw [hg] at hm; exact hm

theorem descSFold_mono (secs : List SectionT) (h' : String) (tv : JVal) :
    ∀ st, tv ∈ dLookup st h' → tv ∈ dLookup (secs.foldl descSection st) h' := by
  induction secs with
  | nil => intro st hm; exact hm
  | cons s t ih =>
    intro st hm
    exact ih _ (descSection_mono st s h' tv hm)

/-- A question whose raw `text` is a non-empty string is listed verbatim by
`describe()` under its section's (defaulted) heading. -/
theorem describeStructure_mem (form : IntakeForm) (sec : SectionT) (c : Control)
    (q : Question) (t : String) (hsm : sec ∈ form.sections)
    (hcm : c ∈ sec.controls) (hqm : q ∈ c.questions)
    (hq : odGet q "text" = some (.str t)) (ht : t ≠ "") :
    JVal.str t ∈ dLookup (describeStructure form) sec.headingD := by
  unfold describeStructure
  obtain ⟨l1, l2, hsections⟩ := List.append_of_mem hsm
  rw [hsections, List.foldl_append, List.foldl_cons]
  apply descSFold_mono
  exact descSection_adds _ sec c q t hcm hqm hq ht

/-! Lemmas about `_create_question_response` and the submission-building loop. -/

theorem createQuestionResponse_blank (info : QInfo) (a : String)
    (h : blankAnswer a = true) : createQuestionResponse info a = none := by
  unfold createQuestionResponse
  simp [h]

theorem createQuestionResponse_answerText (info : QInfo) (a : String)
    (r : Response) (h : createQuestionResponse info a = some r) :
    odGet r "answerText" = some (.str a) ∧ blankAnswer a = false := by
  unfold createQuestionResponse at h
  by_cases hb : blankAnswer a
  · rw [if_pos hb] at h
    exact absurd h (by simp)
  · rw [if_neg hb] at h
    simp only [Option.some.injEq] at h
    subst h
    refine ⟨?_, by simpa using hb⟩
    simp [odGet]

/-- Well-formedness of an emitted response: its `answerText` is the raw answer
of some non-blank input answer. -/
def respOK (r : Response) : Prop :=
  ∃ a, odGet r "answerText" = some (.str a) ∧ blankAnswer a = false

theorem respStep_inv (inner : List (String × QInfo))
    (acc : List Response × List Event) (qa : String × String)
    (h : ∀ r ∈ acc.1, respOK r) : ∀ r ∈ (respStep inner acc qa).1, respOK r := by
  cases hg : odGet inner qa.1 with
  | none =>
    intro r hr
    simp only [respStep, hg] at hr
    exact h r hr
  | some info =>
    cases hc : createQuestionResponse info qa.2 with
    | none =>
      intro r hr
      simp only [respStep, hg, hc] at hr
      exact h r hr
    | some r0 =>
      intro r hr
      simp only [respStep, hg, hc, List.mem_append] at hr
      rcases hr with hr | hr
      · exact h r hr
      · rw [List.mem_singleton.mp hr]
        obtain ⟨h1, h2⟩ := createQuestionResponse_answerText info qa.2 r0 hc
        exact ⟨qa.2, h1, h2⟩

theorem respStep_fold_inv (inner : List (String × QInfo))
    (qs : List (String × String)) :
    ∀ acc, (∀ r ∈ acc.1, respOK r) →
      ∀ r ∈ (qs.foldl (respStep inner) acc).1, respOK r := by
  induction qs with
  | nil => intro acc h; exact h
  | cons qa t ih =>
    intro acc h
    exact ih _ (respStep_inv inner acc qa h)

theorem respSection_inv (qm : QMap) (p : String × List (String × String)) :
    ∀ acc, (∀ r ∈ acc.1, respOK r) →
      ∀ r ∈ (respSection qm acc p).1, respOK r := by
  intro acc h
  unfold respSection
  cases odGet qm p.1 with
  | none => exact h
  | some inner => exact respStep_fold_inv inner p.2 acc h

/-- Every response of the built payload carries as `answerText` a raw answer
that is neither empty nor whitespace-only. -/
theorem buildResponses_respOK (qm : QMap) (input : InputData) :
    ∀ r ∈ (buildResponses qm input).1, respOK r := by
  unfold buildResponses
  have base : ∀ r ∈ (([], []) : List Response × List Event).1, respOK r := by
    intro r hr
    simp at hr
  revert base
  generalize (([], []) : List Response × List Event) = acc0
  intro base
  induction input generalizing acc0 with
  | nil => exact base
  | cons p t ih =>
    exact ih _ (respSection_inv qm p acc0 base)

/-! Lemmas about `_get_required_questions`. -/

theorem reqOf_eq (inner : List (String × QInfo)) :
    inner.foldl (fun acc q => if requiredFlag q.2 then acc ++ [q.1] else acc) [] =
      (inner.filter (fun p => requiredFlag p.2)).map Prod.fst := by
  have := foldl_filter_acc (fun q : String × QInfo => requiredFlag q.2)
    (fun q : String × QInfo => q.1) inner []
  simpa using this

theorem getRequiredQuestions_odGet (qm : QMap) (s : String) :
    odGet (getRequiredQuestions qm) s =
      (odGet qm s).map
        (fun inner => (inner.filter (fun p => requiredFlag p.2)).map Prod.fst) := by
  unfold getRequiredQuestions
  rw [odGet_map]
  cases odGet qm s with
  | none => rfl
  | some inner => simp [reqOf_eq]

/-- Characterisation of membership in `required_questions`: a text is required
for a section exactly when the section's map holds an entry of that text whose
question carries a truthy `required` value. -/
theorem required_mem_iff (qm : QMap) (s t : String)
    (inner : List (String × QInfo)) (hs : odGet qm s = some inner) :
    t ∈ (odGet (getRequiredQuestions qm) s).getD [] ↔
      ∃ info, (t, info) ∈ inner ∧ requiredFlag info = true := by
  rw [getRequiredQuestions_odGet, hs]
  simp only [Option.map_some', Option.getD_some, List.mem_map, List.mem_filter]
  constructor
  · rintro ⟨p, ⟨hp, hflag⟩, rfl⟩
    exact ⟨p.2, hp, hflag⟩
  · rintro ⟨info, hmem, hflag⟩
    exact ⟨(t, info), ⟨hmem, hflag⟩, rfl⟩

/-! Lemmas about the three validation phases. -/

theorem validate_error_phase1 (qm : QMap) (req : ReqMap) (input : InputData)
    (h : invalidSectionsOf qm input ≠ []) :
    validate_input_data qm req input =
      .error (.invalidSections (invalidSectionsOf qm input)) := by
  unfold validate_input_data
  simp [h]

theorem mem_invalidSectionsOf (qm : QMap) (input : InputData) (s : String)
    (hs : s ∈ input.map Prod.fst) (hn : odGet qm s = none) :
    s ∈ invalidSectionsOf qm input := by
  unfold invalidSectionsOf
  refine List.mem_filter.mpr ⟨hs, ?_⟩
  simp [hn]

theorem invalidSectionsOf_nil (qm : QMap) (input : InputData)
    (h : ∀ s ∈ input.map Prod.fst, (odGet qm s).isSome = true) :
    invalidSectionsOf qm input = [] := by
  unfold invalidSectionsOf
  rw [List.filter_eq_nil_iff]
  intro s hs
  simp [h s hs]

theorem invalidFieldsOf_nil (qm : QMap) (input : InputData)
    (h : ∀ p ∈ input, fieldContrib qm p = []) :
    invalidFieldsOf qm input = [] :=
  foldl_append_acc_nil _ input h

theorem fieldContrib_nil (qm : QMap) (p : String × List (String × String))
    (h : ∀ inner, odGet qm p.1 = some inner →
      ∀ t ∈ p.2.map Prod.fst, (odGet inner t).isSome = true) :
    fieldContrib qm p = [] := by
  cases hg : odGet qm p.1 with
  | none => simp [fieldContrib, hg]
  | some inner =>
    have hfil : (p.2.map (fun f => f.1)).filter (fun f => !(odGet inner f).isSome) = [] := by
      rw [List.filter_eq_nil_iff]
      intro t ht
      have := h inner hg t ht
      simp [this]
    simp only [fieldContrib, hg, hfil, List.map_nil]

theorem missingRequiredOf_nil (req : ReqMap) (input : InputData)
    (h : ∀ p ∈ req, missingContrib input p = []) :
    missingRequiredOf req input = [] :=
  foldl_append_acc_nil _ req h

theorem missingContrib_nil (input : InputData) (p : String × List String)
    (h : ∀ t ∈ p.2, missingCond ((odGet input p.1).getD []) t = false) :
    missingContrib input p = [] := by
  unfold missingContrib
  have hfil : p.2.filter (missingCond ((odGet input p.1).getD [])) = [] := by
    rw [List.filter_eq_nil_iff]
    intro t ht
    simp [h t ht]
  rw [hfil]
  rfl

theorem validate_ok (qm : QMap) (req : ReqMap) (input : InputData)
    (h1 : invalidSectionsOf qm input = [])
    (h2 : invalidFieldsOf qm input = [])
    (h3 : missingRequiredOf req input = []) :
    validate_input_data qm req input = .ok () := by
  unfold validate_input_data
  simp [h1, h2, h3]

theorem validate_error_phase2 (qm : QMap) (req : ReqMap) (input : InputData)
    (h1 : invalidSectionsOf qm input = [])
    (h2 : invalidFieldsOf qm input ≠ []) :
    validate_input_data qm req input =
      .error (.invalidFields (invalidFieldsOf qm input)) := by
  unfold validate_input_data
  simp [h1, h2]

/-! Claim theorems. -/

/-- C4: the Validator's three phases run strictly in order and each is a hard
gate — for every input holding an unknown section (and also a missing
required answer), validation fails with the unknown-section report only, never
a later phase's report. -/
theorem validator_phase_order (qm : QMap) (req : ReqMap) (input : InputData)
    (s : String) (hs : s ∈ input.map Prod.fst) (hn : odGet qm s = none)
    (_hmiss : missingRequiredOf req input ≠ []) :
    ∃ ls, validate_input_data qm req input = .error (.invalidSections ls) ∧
      s ∈ ls := by
  have hmem := mem_invalidSectionsOf qm input s hs hn
  exact ⟨_, validate_error_phase1 qm req input (List.ne_nil_of_mem hmem), hmem⟩

def c4info : QInfo :=
  ⟨[("text", .str "Q"), ("required", .bool true)],
    ⟨.null, .null, .null, []⟩, ⟨.null, some "S", []⟩⟩

def c4qm : QMap := [("S", [("Q", c4info)])]

def c4input : InputData := [("Bad", [("X", "1")])]

/-- Witness for C4: an input with unknown section `Bad` and the required
answer `S.Q` missing fails with the unknown-section report. -/
theorem validator_phase_order_witness :
    ∃ ls, validate_input_data c4qm [("S", ["Q"])] c4input =
      .error (.invalidSections ls) ∧ "Bad" ∈ ls :=
  validator_phase_order c4qm [("S", ["Q"])] c4input "Bad"
    (by simp [c4input]) (by rfl) (by decide)

def c5q : Question := [("text", .str "Q"), ("required", .str "no")]

def c5info : QInfo := ⟨c5q, ⟨.null, .null, .null, []⟩, ⟨.null, some "S", []⟩⟩

def c5qm : QMap := [("S", [("Q", c5info)])]

/-- C5 counterexample: the question's `required` field is the non-boolean
string `no`, yet the question is classified as required (the code tests Python
truthiness, not `required is True`). -/
theorem required_truthiness_cex :
    jgetD c5q "required" (.bool false) ≠ JVal.bool true ∧
      "Q" ∈ (odGet (getRequiredQuestions c5qm) "S").getD [] := by
  constructor
  · intro h
    have : jgetD c5q "required" (.bool false) = .str "no" := by rfl
    rw [this] at h
    exact JVal.noConfusion h
  · decide

/-- C5 amended: a question text is listed in `required_questions` for a
section exactly when the section map holds an entry of that text whose
question's `required` field (default `False`) is truthy in Python's sense. -/
theorem required_iff_truthy (qm : QMap) (s t : String)
    (inner : List (String × QInfo)) (hs : odGet qm s = some inner) :
    t ∈ (odGet (getRequiredQuestions qm) s).getD [] ↔
      ∃ info, (t, info) ∈ inner ∧
        truthy (jgetD info.question "required" (.bool false)) = true := by
  have := required_mem_iff qm s t inner hs
  simpa [requiredFlag] using this

/-- Witness for C5's amended claim at the concrete map `c5qm`. -/
theorem required_iff_truthy_witness :
    "Q" ∈ (odGet (getRequiredQuestions c5qm) "S").getD [] :=
  (required_iff_truthy c5qm "S" "Q" [("Q", c5info)] (by rfl)).mpr
    ⟨c5info, List.mem_singleton.mpr rfl, by decide⟩

def c6form : IntakeForm :=
  ⟨.str "v", [⟨.null, some "S", [⟨.null, .null, .null, [[("text", .str "   ")]]⟩]⟩]⟩

/-- C6 counterexample: every question of section `S` has empty stripped text,
yet `S` is still a key of the built question map (the claim predicts the
section is absent from the index). -/
theorem blank_section_still_keyed_cex :
    getTextStripped [("text", JVal.str "   ")] = "" ∧
      (odGet (buildQuestionMap c6form) "S").isSome = true := by
  constructor
  · decide
  · decide

/-- C6 amended: the section-key set of the built question map equals the set
of the document's (defaulted) section headings, regardless of the sections'
question texts — a section whose questions all strip to empty text is still
keyed (with an empty inner map). -/
theorem questionMap_keys_eq_headings (form : IntakeForm) (k : String) :
    (odGet (buildQuestionMap form) k).isSome = true ↔
      k ∈ form.sections.map SectionT.headingD :=
  isSome_buildQuestionMap form k

/-- C7: the Submission Builder emits no QuestionResponse for an answer that is
empty or whitespace-only, and every response of the built payload carries a
non-blank raw answer as its `answerText`. -/
theorem no_response_for_blank_answers :
    (∀ info a, (a = "" ∨ pyStrip a = "") → createQuestionResponse info a = none) ∧
      (∀ qm input r, r ∈ (buildResponses qm input).1 →
        ∃ a, odGet r "answerText" = some (.str a) ∧ ¬(a = "" ∨ pyStrip a = "")) := by
  constructor
  · intro info a h
    apply createQuestionResponse_blank
    unfold blankAnswer
    rcases h with h | h <;> simp [h]
  · intro qm input r hr
    obtain ⟨a, h1, h2⟩ := buildResponses_respOK qm input r hr
    refine ⟨a, h1, ?_⟩
    unfold blankAnswer at h2
    rintro (h | h) <;> simp [h] at h2

def c7info : QInfo :=
  ⟨[("text", .str "Q")], ⟨.null, .null, .null, []⟩, ⟨.null, some "S", []⟩⟩

/-- Witness for C7: a whitespace-only answer yields no response. -/
theorem no_response_for_blank_answers_witness :
    createQuestionResponse c7info "   " = none :=
  no_response_for_blank_answers.1 c7info "   " (Or.inr (by decide))

/-- C9: `generate_vendor_submission` consults the fetch collaborator on every
call, even when the `question_map` / `required_questions` caches are
populated, and when the fetch fails it raises the validation-error kind
regardless of the cache — the cached indices alone never suffice. -/
theorem generate_always_fetches :
    (∀ (w : World) (cache : Option (QMap × ReqMap)) (input : InputData)
        (validate : Bool),
      Event.fetchCall ∈ (generate_vendor_submission w cache input validate).2) ∧
      (∀ (w : World) (cache : Option (QMap × ReqMap)) (input : InputData)
          (validate : Bool), w.fetchResult = none →
        (generate_vendor_submission w cache input validate).1 = .error .noForm) := by
  constructor
  · intro w cache input validate
    cases hfr : w.fetchResult with
    | none => simp [generate_vendor_submission, getForm, hfr]
    | some f =>
      have hg : getForm w =
          (some f, [.fetchCall, .log .info "200 - vendor intake form"]) := by
        simp [getForm, hfr]
      cases hv : (if validate then
          validate_input_data (cacheOrBuild cache f).1 (cacheOrBuild cache f).2 input
        else .ok ()) with
      | error e => simp [generate_vendor_submission, hg, hv]
      | ok u => simp [generate_vendor_submission, hg, hv]
  · intro w cache input validate h
    have hg : getForm w = (none, [.fetchCall]) := by simp [getForm, h]
    simp [generate_vendor_submission, hg]

def c9info : QInfo :=
  ⟨[("text", .str "Q")], ⟨.null, .null, .null, []⟩, ⟨.null, some "S", []⟩⟩

def c9w : World := ⟨fun _ => .null, none, fun _ => .null⟩

/-- Witness for C9: a populated cache does not save a failed fetch. -/
theorem generate_always_fetches_witness :
    Event.fetchCall ∈ (generate_vendor_submission c9w
        (some ([("S", [("Q", c9info)])], [("S", [])])) [] true).2 ∧
      (generate_vendor_submission c9w (some ([("S", [("Q", c9info)])], [("S", [])]))
        [] true).1 = .error .noForm :=
  ⟨generate_always_fetches.1 c9w (some ([("S", [("Q", c9info)])], [("S", [])])) [] true,
    generate_always_fetches.2 c9w (some ([("S", [("Q", c9info)])], [("S", [])])) [] true rfl⟩

/-- Keys of the nested `question` object of an emitted response. -/
def respQuestionKeys (r : Response) : List String :=
  match odGet r "question" with
  | some (.obj kvs) => kvs.map Prod.fst
  | _ => []

/-- Fixed key list of the `question` object built by
`_create_question_response`. -/
def questionRespKeyList : List String :=
  ["language", "type", "text", "identifier", "identification", "options",
    "required", "showNotApplicable", "answeredTag", "notApplicableTag",
    "questionLevelCommentTag", "fileUploadTag", "answeredCondition",
    "warningCondition", "commentRequiredCondition",
    "fileUploadRequiredCondition", "control", "metadata", "questionIdentifier"]

def c2q : Question := [("text", .str "Q"), ("weird", .str "v")]

def c2info : QInfo := ⟨c2q, ⟨.null, .null, .null, []⟩, ⟨.null, some "S", []⟩⟩

/-- C2 counterexample: the fetched question carries a metadata field `weird`
unknown to this schema; the emitted QuestionResponse's question object drops
it instead of passing it through. -/
theorem qresponse_drops_unknown_cex :
    "weird" ∈ c2q.map Prod.fst ∧
      ∃ r, createQuestionResponse c2info "ans" = some r ∧
        "weird" ∉ respQuestionKeys r := by
  refine ⟨by decide, ⟨_, rfl, by decide⟩⟩

/-- C2 amended: for a non-blank answer the emitted QuestionResponse's question
object carries exactly the fixed, enumerated schema fields (with defaults);
question fields outside this list are dropped, not passed through. -/
theorem qresponse_fixed_fields (info : QInfo) (a : String)
    (h : blankAnswer a = false) :
    ∃ r, createQuestionResponse info a = some r ∧
      respQuestionKeys r = questionRespKeyList ∧
      r.map Prod.fst =
        ["question", "customFormControlIdentifier", "choices", "answerText"] := by
  unfold createQuestionResponse
  rw [if_neg (by simp [h])]
  exact ⟨_, rfl, rfl, rfl⟩

/-- Witness for C2's amended claim at a concrete question and answer. -/
theorem qresponse_fixed_fields_witness :
    ∃ r, createQuestionResponse c2info "ans" = some r ∧
      respQuestionKeys r = questionRespKeyList ∧
      r.map Prod.fst =
        ["question", "customFormControlIdentifier", "choices", "answerText"] :=
  qresponse_fixed_fields c2info "ans" (by decide)

def c3form : InputData := [("Vendor Information", [("Vendor URL", "acme.com")])]

def c3w : World := ⟨fun _ => .bool true, none, fun _ => .bool true⟩

/-- C3 counterexample: with `force = true` the domain-existence collaborator
is still queried (the lookup at line 341 precedes the `force` test at line
342), contradicting "queried only when force is false". -/
theorem domain_lookup_despite_force_cex :
    Event.domainCall "acme.com" ∈ (new c3w none c3form true true).2 := by
  decide

/-- C3 amended: whenever a domain is extracted the domain collaborator is
queried, for every value of `force` (its result is merely ignored when
`force` is true); and when the domain exists and `force` is false, `new`
returns false without fetching the form. -/
theorem domain_gate_behaviour (w : World) (cache : Option (QMap × ReqMap))
    (form : InputData) (validate force : Bool) (hd : domainOf form ≠ "") :
    Event.domainCall (domainOf form) ∈ (new w cache form force validate).2 ∧
      (truthy (w.domainResult (domainOf form)) = true →
        (new w cache form false validate).1 = false ∧
          Event.fetchCall ∉ (new w cache form false validate).2) := by
  constructor
  · by_cases hex : (!force && truthy (w.domainResult (domainOf form))) = true
    · simp [new, hd, hex]
    · have hex' : (!force && truthy (w.domainResult (domainOf form))) = false := by
        simpa using hex
      cases hfr : w.fetchResult with
      | none => simp [new, hd, hex', getForm, hfr]
      | some f =>
        cases hgen : generate_vendor_submission w cache form validate with
        | mk res ev3 =>
          cases res with
          | error e => simp [new, hd, hex', getForm, hfr, hgen]
          | ok pr =>
            by_cases hcr : truthy (w.createResult pr.1) = true
            · simp [new, hd, hex', getForm, hfr, hgen, hcr]
            · have hcr' : truthy (w.createResult pr.1) = false := by simpa using hcr
              simp [new, hd, hex', getForm, hfr, hgen, hcr']
  · intro hex
    constructor
    · simp [new, hd, hex]
    · simp [new, hd, hex]

def c3wB : World :=
  ⟨fun _ => .bool true, some ⟨.str "v", []⟩, fun _ => .bool true⟩

/-- Witness for C3's amended claim: concrete run where the domain exists. -/
theorem domain_gate_behaviour_witness :
    Event.domainCall (domainOf c3form) ∈ (new c3wB none c3form true true).2 ∧
      ((new c3wB none c3form false true).1 = false ∧
        Event.fetchCall ∉ (new c3wB none c3form false true).2) := by
  have h := domain_gate_behaviour c3wB none c3form true true (by decide)
  exact ⟨h.1, h.2 (by decide)⟩

/-- C1: the orchestrator `new` is a total function into a boolean (its
embedding has no exception channel: every `VendorFormValidationError` and
failure of a collaborator is consumed inside the definition), and every run
that produces `false` — missing domain, existing domain, failed fetch, failed
validation, failed create — also records a warning- or error-level log
line. -/
theorem new_false_implies_logged (w : World) (cache : Option (QMap × ReqMap))
    (form : InputData) (force validate : Bool)
    (h : (new w cache form force validate).1 = false) :
    ∃ lvl msg, Event.log lvl msg ∈ (new w cache form force validate).2 ∧
      (lvl = .warning ∨ lvl = .error) := by
  by_cases hd : domainOf form = ""
  · refine ⟨.error, "No domain found in form data", ?_, Or.inr rfl⟩
    simp [new, hd]
  · by_cases hex : (!force && truthy (w.domainResult (domainOf form))) = true
    · refine ⟨.warning,
        "Domain " ++ domainOf form ++ " already exists. Intake will be skipped.",
        ?_, Or.inl rfl⟩
      simp [new, hd, hex]
    · have hex' : (!force && truthy (w.domainResult (domainOf form))) = false := by
        simpa using hex
      cases hfr : w.fetchResult with
      | none =>
        refine ⟨.error, "Could not retrieve vendor intake form", ?_, Or.inr rfl⟩
        simp [new, hd, hex', getForm, hfr]
      | some f =>
        cases hgen : generate_vendor_submission w cache form validate with
        | mk res ev3 =>
          cases res with
          | error e =>
            refine ⟨.error, "Form validation failed: " ++ verrMsg e, ?_, Or.inr rfl⟩
            simp [new, hd, hex', getForm, hfr, hgen]
          | ok pr =>
            by_cases hcr : truthy (w.createResult pr.1) = true
            · exfalso
              simp [new, hd, hex', getForm, hfr, hgen, hcr] at h
            · have hcr' : truthy (w.createResult pr.1) = false := by simpa using hcr
              refine ⟨.error,
                "Failed to submit vendor intake form for domain: " ++ domainOf form,
                ?_, Or.inr rfl⟩
              simp [new, hd, hex', getForm, hfr, hgen, hcr']

def c1w : World := ⟨fun _ => .bool false, none, fun _ => .bool true⟩

/-- Witness for C1: a form without `Vendor Information.Vendor URL` yields
`false` and an error log line. -/
theorem new_false_implies_logged_witness :
    ∃ lvl msg, Event.log lvl msg ∈ (new c1w none [] false true).2 ∧
      (lvl = .warning ∨ lvl = .error) :=
  new_false_implies_logged c1w none [] false true (by decide)

/-- C8: for input whose sections and question texts all exist in the question
map and which passes the code's required-field test for every entry of
`required_questions`, validation succeeds and building the payload (with
validation on, against the same cached indices) succeeds. -/
theorem roundtrip_build_validate (w : World) (f : IntakeForm) (qm : QMap)
    (req : ReqMap) (input : InputData) (hw : w.fetchResult = some f)
    (H1 : ∀ s ∈ input.map Prod.fst, (odGet qm s).isSome = true)
    (H2 : ∀ p ∈ input, ∀ t ∈ p.2.map Prod.fst,
      (odGet ((odGet qm p.1).getD []) t).isSome = true)
    (H3 : ∀ p ∈ req, ∀ t ∈ p.2, missingCond ((odGet input p.1).getD []) t = false) :
    validate_input_data qm req input = .ok () ∧
      ∃ payload, (generate_vendor_submission w (some (qm, req)) input true).1 =
        .ok (payload, some (qm, req)) := by
  have h1 := invalidSectionsOf_nil qm input H1
  have h2 : invalidFieldsOf qm input = [] := by
    apply invalidFieldsOf_nil
    intro p hp
    apply fieldContrib_nil
    intro inner hinner t ht
    have := H2 p hp t ht
    rw [hinner] at this
    simpa using this
  have h3 : missingRequiredOf req input = [] := by
    apply missingRequiredOf_nil
    intro p hp
    exact missingContrib_nil input p (H3 p hp)
  have hv := validate_ok qm req input h1 h2 h3
  refine ⟨hv, ⟨f.identifier, (buildResponses qm input).1⟩, ?_⟩
  have hg : getForm w = (some f, [.fetchCall, .log .info "200 - vendor intake form"]) := by
    simp [getForm, hw]
  simp [generate_vendor_submission, cacheOrBuild, hg, hv]

def c8form : IntakeForm :=
  ⟨.str "ver1",
    [⟨.str "s1", some "Vendor Information",
      [⟨.str "c1", .null, .null,
        [[("text", .str "Vendor Name"), ("required", .bool true)],
          [("text", .str "Phone Number")]]⟩]⟩]⟩

def c8qm : QMap := buildQuestionMap c8form

def c8req : ReqMap := getRequiredQuestions c8qm

def c8input : InputData := [("Vendor Information", [("Vendor Name", "Acme")])]

def c8w : World := ⟨fun _ => .bool false, some c8form, fun _ => .bool true⟩

/-- Witness for C8: the spec's own scenario (required `Vendor Name` answered
`Acme`, optional `Phone Number` omitted) validates and builds. -/
theorem roundtrip_build_validate_witness :
    validate_input_data c8qm c8req c8input = .ok () ∧
      ∃ payload, (generate_vendor_submission c8w (some (c8qm, c8req)) c8input true).1 =
        .ok (payload, some (c8qm, c8req)) :=
  roundtrip_build_validate c8w c8form c8qm c8req c8input rfl
    (by decide) (by decide) (by decide)

/-- C10: `describe()` lists a question's non-empty text verbatim (unstripped),
while the question map keys questions by stripped text; hence a text with
leading or trailing whitespace is listed by `describe()` but is a key of no
section of the map, and an input keyed by it fails validation as an unknown
field. -/
theorem describe_unstripped_vs_index (form : IntakeForm) (sec : SectionT)
    (c : Control) (q : Question) (t a : String) (req : ReqMap)
    (hsm : sec ∈ form.sections) (hcm : c ∈ sec.controls) (hqm : q ∈ c.questions)
    (hq : odGet q "text" = some (.str t)) (ht : t ≠ "")
    (hts : strippedB t = false) :
    JVal.str t ∈ dLookup (describeStructure form) sec.headingD ∧
      (∀ s' inner, odGet (buildQuestionMap form) s' = some inner →
        odGet inner t = none) ∧
      ∃ ls, validate_input_data (buildQuestionMap form) req
          [(sec.headingD, [(t, a)])] = .error (.invalidFields ls) ∧
        (sec.headingD ++ "." ++ t) ∈ ls := by
  refine ⟨describeStructure_mem form sec c q t hsm hcm hqm hq ht,
    fun s' inner hinner => not_key_of_not_stripped form s' t hts inner hinner, ?_⟩
  have hkey : (odGet (buildQuestionMap form) sec.headingD).isSome = true :=
    (isSome_buildQuestionMap form sec.headingD).mpr (List.mem_map.mpr ⟨sec, hsm, rfl⟩)
  obtain ⟨inner, hinner⟩ :
      ∃ inner, odGet (buildQuestionMap form) sec.headingD = some inner := by
    cases hg : odGet (buildQuestionMap form) sec.headingD with
    | none => rw [hg] at hkey; simp at hkey
    | some inner => exact ⟨inner, rfl⟩
  have hnone : odGet inner t = none :=
    not_key_of_not_stripped form sec.headingD t hts inner hinner
  have h1 : invalidSectionsOf (buildQuestionMap form)
      [(sec.headingD, [(t, a)])] = [] := by
    apply invalidSectionsOf_nil
    intro s hs
    simp only [List.map_cons, List.map_nil, List.mem_singleton] at hs
    rw [hs]
    exact hkey
  have h2 : invalidFieldsOf (buildQuestionMap form) [(sec.headingD, [(t, a)])] =
      [sec.headingD ++ "." ++ t] := by
    unfold invalidFieldsOf
    simp only [List.foldl_cons, List.foldl_nil, List.nil_append]
    simp [fieldContrib, hinner, hnone]
  have hne : invalidFieldsOf (buildQuestionMap form)
      [(sec.headingD, [(t, a)])] ≠ [] := by
    rw [h2]; simp
  refine ⟨_, validate_error_phase2 _ req _ h1 hne, ?_⟩
  rw [h2]
  exact List.mem_singleton.mpr rfl

def c10q : Question := [("text", .str " Padded ")]

def c10c : Control := ⟨.str "c", .null, .null, [c10q]⟩

def c10sec : SectionT := ⟨.str "s", some "S", [c10c]⟩

def c10form : IntakeForm := ⟨.str "v", [c10sec]⟩

/-- Witness for C10 at a question whose text is whitespace-padded. -/
theorem describe_unstripped_vs_index_witness :
    JVal.str " Padded " ∈ dLookup (describeStructure c10form) c10sec.headingD ∧
      (∀ s' inner, odGet (buildQuestionMap c10form) s' = some inner →
        odGet inner " Padded " = none) ∧
      ∃ ls, validate_input_data (buildQuestionMap c10form) []
          [(c10sec.headingD, [(" Padded ", "x")])] = .error (.invalidFields ls) ∧
        (c10sec.headingD ++ "." ++ " Padded ") ∈ ls :=
  describe_unstripped_vs_index c10form c10sec c10c c10q " Padded " "x" []
    (List.mem_cons_self _ _) (List.mem_cons_self _ _) (List.mem_cons_self _ _)
    rfl (by decide) (by decide)
